import Mathlib

/-!
Verification development for the `analyze-tracking` Python analyzers.

The repository ships two variants of the Python tracking-call analyzer:

* the reference variant `src/src/analyze/python/pythonTrackingAnalyzer.py`
  (the richer implementation, designated the reference by the design notes), and
* the legacy variant `src/src/analyze/pythonTrackingAnalyzer.py`.

Below, the reference variant's `TrackingVisitor` and `analyze_python_code` are
embedded shallowly: Python `ast` nodes become an inductive syntax, the visitor's
mutable state (`current_function`, `var_types`) becomes explicit state passing,
and Python dictionaries become association lists with insertion-order/overwrite
semantics.  From the legacy variant we embed the two functions that decide
claims about it: its `get_value_type` and its `analyze_python_code` entry point.
-/

namespace AnalyzeTracking

/-- Values of Python `ast.Constant` nodes as the analyzer can observe them:
strings, ints, floats, booleans, `None`, and an opaque case for the remaining
literal kinds (bytes, complex, Ellipsis) that only records their truthiness. -/
inductive PyVal where
  | str (s : String)
  | int (n : Int)
  | float (q : Rat)
  | bool (b : Bool)
  | noneV
  | otherLit (id : Nat) (truthyFlag : Bool)
deriving DecidableEq, Repr

/-- Python truthiness (`if value:`) of a constant value. -/
def PyVal.truthy : PyVal → Bool
  | .str s => !s.isEmpty
  | .int n => n != 0
  | .float q => q != 0
  | .bool b => b
  | .noneV => false
  | .otherLit _ t => t

/-- Numeric view used by Python `==`: ints, floats and bools compare as numbers. -/
def PyVal.numView : PyVal → Option Rat
  | .int n => some (n : Rat)
  | .float q => some q
  | .bool b => some (if b then 1 else 0)
  | _ => none

/-- Python `==` on constant values: strings compare as strings, `None` only to
`None`, and ints/floats/bools compare numerically (`1 == True`).  Opaque
literals compare by their identifier (equal opaque literals share one). -/
def pyEq (a b : PyVal) : Bool :=
  match a, b with
  | .str s, .str t => s == t
  | .noneV, .noneV => true
  | .otherLit i _, .otherLit j _ => i == j
  | a, b =>
    match a.numView, b.numView with
    | some x, some y => x == y
    | _, _ => false

/-- Python `str()` of a constant value, as used by the f-string that builds the
flattened `$set.<inner>` property keys. -/
def pyStr : PyVal → String
  | .str s => s
  | .int n => toString n
  | .float q => toString q
  | .bool b => if b then "True" else "False"
  | .noneV => "None"
  | .otherLit _ _ => "<literal>"

/-- `TrackingVisitor.get_value_type` of the reference variant
(`src/src/analyze/python/pythonTrackingAnalyzer.py`, lines 738-756): the
boolean check comes first because `bool` is a subtype of `int` in Python. -/
def get_value_type : PyVal → String
  | .bool _ => "boolean"
  | .str _ => "string"
  | .int _ => "number"
  | .float _ => "number"
  | .noneV => "null"
  | .otherLit _ _ => "any"

/-- `TrackingVisitor.get_value_type` of the legacy variant
(`src/src/analyze/pythonTrackingAnalyzer.py`, lines 385-394): there the
`isinstance(value, (int, float))` check precedes the `isinstance(value, bool)`
check, and since Python's `bool` is a subclass of `int`, booleans are caught by
the number case and the boolean case is unreachable. -/
def get_value_type_legacy : PyVal → String
  | .str _ => "string"
  | .int _ => "number"
  | .float _ => "number"
  | .bool _ => "number"
  | .noneV => "null"
  | .otherLit _ _ => "any"

/-- A JSON-Schema-like type descriptor as built by the analyzer: the dicts
`\x7b"type": t\x7d`, `\x7b"type": "object", "properties": ...\x7d` and
`\x7b"type": "array", "items": ...\x7d`. -/
inductive TypeDesc where
  | mk (type : String) (properties : Option (List (PyVal × TypeDesc))) (items : Option TypeDesc)

/-- The plain descriptor `\x7b"type": k\x7d`. -/
def TypeDesc.prim (k : String) : TypeDesc := .mk k none none

/-- The `type` field of a descriptor. -/
def TypeDesc.type : TypeDesc → String
  | .mk t _ _ => t

/-- A property map: a Python dict from property key to type descriptor,
modelled as an association list with first-insertion order and overwrite. -/
abbrev Props := List (PyVal × TypeDesc)

/-- Values stored in `TrackingVisitor.var_types`: Python keeps there either a
plain type-name string or an already-built descriptor dict. -/
inductive VarType where
  | s (kind : String)
  | d (desc : TypeDesc)

/-- Insert into a Python dict modelled as an association list: an existing key
(under Python `==`) keeps its position and original key object and has its
value replaced; a fresh key is appended. -/
def insertProp (props : Props) (k : PyVal) (v : TypeDesc) : Props :=
  if props.any (fun p => pyEq p.1 k) then
    props.map (fun p => if pyEq p.1 k then (p.1, v) else p)
  else
    props ++ [(k, v)]

/-- Python `dict.update`: insert every entry of `other`, in order. -/
def propsUpdate (props : Props) (other : Props) : Props :=
  other.foldl (fun acc p => insertProp acc p.1 p.2) props

/-- The subset of Python expression nodes the analyzer distinguishes by
`isinstance` checks.  Every other expression kind behaves uniformly (it only
gets recursed into by `generic_visit`), so it is represented by `otherE`
carrying its child expressions in field order.  Keyword arguments carry an
optional name (`none` models `**kwargs`); dict keys are optional (`none`
models `**` unpacking).  `call` carries the node's 1-based line number, the
only location the visitor reads. -/
inductive Expr where
  | constant (v : PyVal)
  | name (id : String)
  | attributeE (value : Expr) (attr : String)
  | call (func : Expr) (args : List Expr) (keywords : List (Option String × Expr)) (lineno : Nat)
  | dict (keys : List (Option Expr)) (values : List Expr)
  | listE (elts : List Expr)
  | tupleE (elts : List Expr)
  | subscript (value : Expr) (slice : Expr)
  | otherE (children : List Expr)

/-- The statement nodes the visitor handles specially, plus `otherS` for every
other statement kind (its child expressions and child statements, in field
order).  `functionDef` keeps only the pieces the visitor reads: the name, the
positional parameters with their optional annotations, and the body. -/
inductive Stmt where
  | functionDef (name : String) (params : List (String × Option Expr)) (body : List Stmt)
  | classDef (name : String) (body : List Stmt)
  | annAssign (target : Expr) (ann : Expr) (value : Option Expr)
  | assign (targets : List Expr) (value : Expr)
  | exprStmt (e : Expr)
  | otherS (exprs : List Expr) (body : List Stmt)

/-- The fields of an `ast.Call` node, as passed around by the extraction
helpers. -/
structure CallData where
  func : Expr
  args : List Expr
  keywords : List (Option String × Expr)
  lineno : Nat

/-- The `TYPE_MAPPINGS` table (reference variant, lines 41-48) consulted via
`TYPE_MAPPINGS.get(type_name, 'any')`. -/
def typeMapName (n : String) : String :=
  if n == "int" then "number"
  else if n == "float" then "number"
  else if n == "str" then "string"
  else if n == "bool" then "boolean"
  else if n == "None" then "null"
  else if n == "NoneType" then "null"
  else "any"

/-- The `ARRAY_TYPES` container-name set (line 51). -/
def isArrayTypeName (n : String) : Bool :=
  n == "List" || n == "Tuple" || n == "Set" || n == "list" || n == "tuple" || n == "set"

/-- The `OBJECT_TYPES` container-name set (line 54). -/
def isObjectTypeName (n : String) : Bool :=
  n == "Dict" || n == "dict"

/-- `TrackingVisitor.extract_type_annotation` (reference variant, lines
147-184).  A bare name goes through `TYPE_MAPPINGS`; a subscript whose value
is a name is checked against the container tables, recursing into a simple
(name) slice for arrays; everything else falls through to `'any'`.  The
legacy variant's function (lines 37-67) spells the same tables inline and is
extensionally identical. -/
def extract_type_annot : Expr → VarType
  | .name ty => .s (typeMapName ty)
  | .subscript (.name container) slice =>
    if isArrayTypeName container then
      match slice with
      | .name el => .d (.mk "array" none (some (.prim (typeMapName el))))
      | _ => .s "array"
    else if isObjectTypeName container then .s "object"
    else .s "any"
  | _ => .s "any"

/-- `TrackingVisitor._is_amplitude_call` (lines 315-323): the first positional
argument is a call to `BaseEvent`. -/
def is_amplitude_call (node : CallData) : Bool :=
  match node.args.head? with
  | some (.call (.name f) _ _ _) => f == "BaseEvent"
  | _ => false

/-- `TrackingVisitor._is_snowplow_tracker_call` (lines 325-339): the first
positional argument is a call to `StructuredEvent`, or it is a bare name and
the receiver object is named `tracker`.  `objId` is `node.func.value.id`,
already known to exist at the call site. -/
def is_snowplow_tracker_call (node : CallData) (objId : String) : Bool :=
  match node.args.head? with
  | some (.call (.name f) _ _ _) => f == "StructuredEvent"
  | some (.name _) => objId == "tracker"
  | _ => false

/-- `TrackingVisitor._is_snowplow_function_call` (lines 341-345): the first
positional argument is the constant `'trackStructEvent'`. -/
def is_snowplow_function_call (node : CallData) : Bool :=
  match node.args.head? with
  | some (.constant v) => pyEq v (.str "trackStructEvent")
  | _ => false

/-- `TrackingVisitor._detect_method_call_source` (lines 273-295).  The
`ANALYTICS_SOURCES` loop only matches the four entries that carry both an
`object` and a `method` key, in dict insertion order; then the amplitude and
snowplow special cases run.  `hasattr(node.func.value, 'id')` holds exactly
when the receiver is a bare name. -/
def detect_method_call_source (node : CallData) (funcValue : Expr) (methodName : String) :
    Option String :=
  match funcValue with
  | .name objId =>
    if objId == "analytics" && methodName == "track" then some "segment"
    else if objId == "mp" && methodName == "track" then some "mixpanel"
    else if objId == "rudder_analytics" && methodName == "track" then some "rudderstack"
    else if objId == "posthog" && methodName == "capture" then some "posthog"
    else if methodName == "track" && is_amplitude_call node then some "amplitude"
    else if methodName == "track" && is_snowplow_tracker_call node objId then some "snowplow"
    else none
  | _ => none

/-- `TrackingVisitor._detect_function_call_source` (lines 297-313). -/
def detect_function_call_source (custom : Option String) (node : CallData) (funcName : String) :
    Option String :=
  if funcName == "trackStructEvent" || funcName == "buildStructEvent" then some "snowplow"
  else if funcName == "snowplow" && is_snowplow_function_call node then some "snowplow"
  else
    match custom with
    | some c => if funcName == c then some "custom" else none
    | none => none

/-- `TrackingVisitor.detect_source` (lines 249-271): method-call shape for an
attribute callee, direct-function shape for a name callee, nothing otherwise. -/
def detect_source (custom : Option String) (node : CallData) : Option String :=
  match node.func with
  | .attributeE v attr => detect_method_call_source node v attr
  | .name f => detect_function_call_source custom node f
  | _ => none

/-- The `for keyword in ...` loops of the extractors: return the value of the
first keyword argument named `name` whose value is a constant; keywords that
miss either condition are skipped, not fatal. -/
def findKwConst (kws : List (Option String × Expr)) (name : String) : Option PyVal :=
  match kws with
  | [] => none
  | (arg, v) :: rest =>
    match arg, v with
    | some a, .constant c => if a == name then some c else findKwConst rest name
    | _, _ => findKwConst rest name

/-- `TrackingVisitor._extract_standard_event_name` (lines 378-383): the second
positional argument, when it is a constant. -/
def extract_standard_event_name (node : CallData) : Option PyVal :=
  match node.args.get? 1 with
  | some (.constant v) => some v
  | _ => none

/-- `TrackingVisitor._extract_amplitude_event_name` (lines 385-396): the
`event_type` keyword of the nested call in the first positional argument. -/
def extract_amplitude_event_name (node : CallData) : Option PyVal :=
  match node.args.head? with
  | some (.call _ _ kws _) => findKwConst kws "event_type"
  | _ => none

/-- `TrackingVisitor._extract_posthog_event_name` (lines 398-413): an `event`
keyword constant first, else the second positional argument. -/
def extract_posthog_event_name (node : CallData) : Option PyVal :=
  match findKwConst node.keywords "event" with
  | some v => some v
  | none =>
    match node.args.get? 1 with
    | some (.constant v) => some v
    | _ => none

/-- `TrackingVisitor._extract_snowplow_event_name` (lines 415-429): only the
`tracker.track(StructuredEvent(action=...))` pattern is handled — the `action`
keyword of a `StructuredEvent` call in the first positional argument; every
other shape returns nothing. -/
def extract_snowplow_event_name (node : CallData) : Option PyVal :=
  match node.args.head? with
  | some (.call (.name f) _ kws _) =>
    if f == "StructuredEvent" then findKwConst kws "action" else none
  | _ => none

/-- `TrackingVisitor._extract_custom_event_name` (lines 431-436): the first
positional argument, when it is a constant. -/
def extract_custom_event_name (node : CallData) : Option PyVal :=
  match node.args.head? with
  | some (.constant v) => some v
  | _ => none

/-- `TrackingVisitor.extract_event_name` (lines 347-376).  The Python body is
wrapped in `try/except`, but every operation it performs is guarded
(`len` checks before indexing, `isinstance` checks before attribute access),
so the handler is unreachable and the embedding is total. -/
def extract_event_name (node : CallData) (source : String) : Option PyVal :=
  if source == "segment" || source == "rudderstack" || source == "mixpanel" then
    extract_standard_event_name node
  else if source == "amplitude" then extract_amplitude_event_name node
  else if source == "posthog" then extract_posthog_event_name node
  else if source == "snowplow" then extract_snowplow_event_name node
  else if source == "custom" then extract_custom_event_name node
  else none

/-- The visitor's mutable scope state: `current_function` and the current
scope's `var_types` table.  The save/restore stacks of the Python class are
realized by the recursion structure of the walker. -/
structure VState where
  current_function : String
  var_types : List (String × VarType)

/-- The visitor state at the start of a run (`__init__`, lines 82-88). -/
def initState : VState := ⟨"global", []⟩

/-- Lookup in `var_types` (Python dict membership plus indexing). -/
def lookupVar (m : List (String × VarType)) (x : String) : Option VarType :=
  match m with
  | [] => none
  | (k, v) :: rest => if k == x then some v else lookupVar rest x

/-- Overwrite-or-append insertion into `var_types` (Python dict assignment). -/
def insertVar (m : List (String × VarType)) (x : String) (v : VarType) :
    List (String × VarType) :=
  match m with
  | [] => [(x, v)]
  | (k, w) :: rest => if k == x then (k, v) :: rest else (k, w) :: insertVar rest x v

/-- The per-element branch of `TrackingVisitor.infer_sequence_item_type`
(reference variant, lines 684-698): constants go through `get_value_type`,
names through `var_types` (string entries used as-is, descriptor entries
degraded to `any`), dict and sequence literals become `object` / `array`,
anything else `any`. -/
def infer_element_kind (st : VState) : Expr → String
  | .constant c => get_value_type c
  | .name id =>
    match lookupVar st.var_types id with
    | some (.s k) => k
    | some (.d _) => "any"
    | none => "any"
  | .dict _ _ => "object"
  | .listE _ => "array"
  | .tupleE _ => "array"
  | _ => "any"

/-- `TrackingVisitor.infer_sequence_item_type` (reference variant, lines
669-713): collapse the element kinds — empty sequences give `any`, a single
distinct kind is kept, kinds within `\x7bnumber, string\x7d` collapse to
`string`, kinds within `\x7bnumber, boolean\x7d` collapse to `number`, and
anything else collapses to `any`.  `List.dedup` models `set(element_types)`. -/
def infer_sequence_item_type (st : VState) (elts : List Expr) : TypeDesc :=
  match elts with
  | [] => .prim "any"
  | e :: rest =>
    let element_types := (e :: rest).map (infer_element_kind st)
    let unique_types := element_types.dedup
    if unique_types.length == 1 then .prim (infer_element_kind st e)
    else if unique_types.all (fun t => t == "number" || t == "string") then .prim "string"
    else if unique_types.all (fun t => t == "number" || t == "boolean") then .prim "number"
    else .prim "any"

mutual

/-- `TrackingVisitor._extract_property_type` (lines 633-667): constants are
typed by `get_value_type`, names through the scope table (a stored string is
wrapped, a stored descriptor returned verbatim, unknown names give `any`),
dict literals recurse through `extract_nested_dict`, list/tuple literals get
an `array` descriptor via `infer_sequence_item_type`, and every other
expression yields nothing (the property is skipped). -/
def extract_property_type (st : VState) : Expr → Option TypeDesc
  | .constant c => some (.prim (get_value_type c))
  | .name id =>
    match lookupVar st.var_types id with
    | some (.s k) => some (.prim k)
    | some (.d desc) => some desc
    | none => some (.prim "any")
  | .dict ks vs => some (.mk "object" (some (extract_nested_dict_loop st ks vs [])) none)
  | .listE elts => some (.mk "array" none (some (infer_sequence_item_type st elts)))
  | .tupleE elts => some (.mk "array" none (some (infer_sequence_item_type st elts)))
  | _ => none

/-- The loop of `TrackingVisitor.extract_nested_dict` (lines 725-734): walk
the parallel `keys`/`values` lists (parallel by the CPython AST invariant),
inserting, in order, every entry whose key is a constant and whose value has
an extractable type, into the accumulated dict. -/
def extract_nested_dict_loop (st : VState) :
    List (Option Expr) → List Expr → Props → Props
  | [], _, acc => acc
  | _ :: _, [], acc => acc
  | k :: ks, v :: vs, acc =>
    match k with
    | some (.constant kv) =>
      extract_nested_dict_loop st ks vs
        (match extract_property_type st v with
         | some t => insertProp acc kv t
         | none => acc)
    | _ => extract_nested_dict_loop st ks vs acc

end

/-- `TrackingVisitor.extract_nested_dict` (lines 715-736): start from the
empty dict. -/
def extract_nested_dict (st : VState) (ks : List (Option Expr)) (vs : List Expr) : Props :=
  extract_nested_dict_loop st ks vs []

/-- `TrackingVisitor._is_non_null_value` (lines 507-513): a constant other
than `None`, or any bare name (a variable reference is assumed non-null). -/
def is_non_null_value : Expr → Bool
  | .constant v => v != .noneV
  | .name _ => true
  | _ => false

/-- The keyword scan of `_get_properties_node`: the first keyword argument
with the given name whose value is a dict literal. -/
def findKwDict (kws : List (Option String × Expr)) (name : String) : Option Expr :=
  match kws with
  | [] => none
  | (arg, v) :: rest =>
    match arg, v with
    | some a, .dict ks vs => if a == name then some (.dict ks vs) else findKwDict rest name
    | _, _ => findKwDict rest name

/-- `TrackingVisitor._get_properties_node` (lines 546-583): locate the
expression holding the property bag for each source.  The returned node is
not yet known to be a dict literal; callers check that.  For snowplow the
function always returns nothing (properties are handled separately). -/
def get_properties_node (node : CallData) (source : String) : Option Expr :=
  if source == "segment" || source == "rudderstack" || source == "mixpanel" then
    node.args.get? 2
  else if source == "amplitude" then
    match node.args.head? with
    | some (.call _ _ kws _) => findKwDict kws "event_properties"
    | _ => none
  else if source == "custom" then node.args.get? 1
  else if source == "posthog" then
    match findKwDict node.keywords "properties" with
    | some d => some d
    | none => node.args.get? 2
  else none

/-- `TrackingVisitor._extract_amplitude_user_id` (lines 515-524): inject
`user_id: string` when the nested call in the first positional argument has a
`user_id` keyword with a non-null value. -/
def extract_amplitude_user_id (node : CallData) : Props :=
  match node.args.head? with
  | some (.call _ _ kws _) =>
    if kws.any (fun p => p.1 == some "user_id" && is_non_null_value p.2) then
      [(.str "user_id", .prim "string")]
    else []
  | _ => []

/-- The check `isinstance(value_node, ast.Constant) and value_node.value is
False` (line 536): Python identity with `False` holds exactly for the boolean
literal `False`. -/
def is_false_literal : Expr → Bool
  | .constant c => c == PyVal.bool false
  | _ => false

/-- The loop inside `_extract_posthog_user_id` (lines 532-537): some position
pairs a constant key equal to `'$process_person_profile'` with the constant
`False`. -/
def anonPairScan : List (Option Expr) → List Expr → Bool
  | [], _ => false
  | _ :: _, [] => false
  | k :: ks, v :: vs =>
    match k with
    | some (.constant kv) =>
      (pyEq kv (.str "$process_person_profile") && is_false_literal v) || anonPairScan ks vs
    | _ => anonPairScan ks vs

/-- The anonymity check of `_extract_posthog_user_id` (lines 529-537): the
located properties node is a dict literal and some entry pairs the literal key
`$process_person_profile` with the literal `False`. -/
def posthog_is_anonymous (node : CallData) : Bool :=
  match get_properties_node node "posthog" with
  | some (.dict ks vs) => anonPairScan ks vs
  | _ => false

/-- `TrackingVisitor._extract_posthog_user_id` (lines 526-544): suppress the
identity property for an anonymous event; otherwise inject
`distinct_id: string` when the first positional argument is a constant with a
truthy value. -/
def extract_posthog_user_id (node : CallData) : Props :=
  if posthog_is_anonymous node then []
  else
    match node.args.head? with
    | some (.constant v) => if v.truthy then [(.str "distinct_id", .prim "string")] else []
    | _ => []

/-- The shared body of the segment/rudderstack and mixpanel branches of
`_extract_user_id` (lines 483-495): when the first positional argument exists
and is a non-null value, inject the given key as a string property. -/
def extract_standard_user_id (node : CallData) (key : String) : Props :=
  match node.args.head? with
  | some a => if is_non_null_value a then [(.str key, .prim "string")] else []
  | none => []

/-- `TrackingVisitor._extract_user_id` (lines 479-505): the source-specific
identity property — `user_id` for segment/rudderstack, `distinct_id` for
mixpanel, and the amplitude/posthog special cases. -/
def extract_user_id (node : CallData) (source : String) : Props :=
  if source == "segment" || source == "rudderstack" then
    extract_standard_user_id node "user_id"
  else if source == "mixpanel" then extract_standard_user_id node "distinct_id"
  else if source == "amplitude" then extract_amplitude_user_id node
  else if source == "posthog" then extract_posthog_user_id node
  else []

/-- The insertions performed by one iteration of the loop in
`TrackingVisitor._extract_dict_properties` (lines 589-609), in order: a
posthog `$set`/`$set_once` entry with a dict value flattens that dict's
extracted entries under `"<key>.<inner>"` (and inserts nothing otherwise);
a posthog `$process_person_profile` entry is dropped; every other entry
inserts its extracted type, when one exists. -/
def dictEntryInserts (st : VState) (source : String) (kv : PyVal) (v : Expr) : Props :=
  if source == "posthog" && (pyEq kv (.str "$set") || pyEq kv (.str "$set_once")) then
    match v with
    | .dict iks ivs =>
      (extract_nested_dict st iks ivs).map
        (fun p => (PyVal.str (pyStr kv ++ "." ++ pyStr p.1), p.2))
    | _ => []
  else if source == "posthog" && pyEq kv (.str "$process_person_profile") then []
  else
    match extract_property_type st v with
    | some t => [(kv, t)]
    | none => []

/-- The loop of `TrackingVisitor._extract_dict_properties` (lines 589-609)
over the parallel `keys`/`values` lists, threading the accumulated dict. -/
def extract_dict_properties_loop (st : VState) (source : String) :
    List (Option Expr) → List Expr → Props → Props
  | [], _, acc => acc
  | _ :: _, [], acc => acc
  | k :: ks, v :: vs, acc =>
    match k with
    | some (.constant kv) =>
      extract_dict_properties_loop st source ks vs
        (propsUpdate acc (dictEntryInserts st source kv v))
    | _ => extract_dict_properties_loop st source ks vs acc

/-- `TrackingVisitor._extract_dict_properties` (lines 585-611). -/
def extract_dict_properties (st : VState) (ks : List (Option Expr)) (vs : List Expr)
    (source : String) : Props :=
  extract_dict_properties_loop st source ks vs []

/-- The keyword loop of `_extract_snowplow_properties` (lines 623-629). -/
def snowplowKwLoop (st : VState) : List (Option String × Expr) → Props → Props
  | [], acc => acc
  | (arg, v) :: rest, acc =>
    match arg with
    | some a =>
      if a != "" && a != "action" then
        let propName := if a == "property_" then "property" else a
        match extract_property_type st v with
        | some t => snowplowKwLoop st rest (insertProp acc (.str propName) t)
        | none => snowplowKwLoop st rest acc
      else snowplowKwLoop st rest acc
    | none => snowplowKwLoop st rest acc

/-- `TrackingVisitor._extract_snowplow_properties` (lines 613-631): from a
`StructuredEvent` call in the first positional argument, every named keyword
except `action` (and except the anonymous/empty name, which the `if
keyword.arg` truthiness check drops) becomes a property, with `property_`
renamed to `property`. -/
def extract_snowplow_properties (st : VState) (node : CallData) : Props :=
  match node.args.head? with
  | some (.call (.name f) _ kws _) =>
    if f == "StructuredEvent" then snowplowKwLoop st kws []
    else []
  | _ => []

/-- `TrackingVisitor.extract_properties` (lines 438-477): start from the
identity property, then merge either the snowplow constructor keywords or the
extracted dict properties.  The `try/except` in the source catches nothing in
practice (every access it guards is bounds-checked), so the embedding is
total. -/
def extract_properties (st : VState) (node : CallData) (source : String) : Props :=
  let properties := propsUpdate [] (extract_user_id node source)
  if source == "snowplow" then
    propsUpdate properties (extract_snowplow_properties st node)
  else
    match get_properties_node node source with
    | some (.dict ks vs) => propsUpdate properties (extract_dict_properties st ks vs source)
    | _ => properties

/-- One emitted event record (lines 236-243). -/
structure Event where
  eventName : PyVal
  source : String
  properties : Props
  filePath : String
  line : Nat
  functionName : String

/-- The parameters fixed for one analysis run: the file path and the optional
custom tracking-function name given to `TrackingVisitor.__init__`. -/
structure Ctx where
  filepath : String
  custom : Option String

/-- The body of `TrackingVisitor.visit_Call` (lines 218-244) for one call
node: detect the source, extract the event name, and when the name is truthy
build the event record from the current state. -/
def processCall (ctx : Ctx) (st : VState) (node : CallData) : Option Event :=
  match detect_source ctx.custom node with
  | none => none
  | some source =>
    match extract_event_name node source with
    | none => none
    | some v =>
      if v.truthy then
        some
          { eventName := v
            source := source
            properties := extract_properties st node source
            filePath := ctx.filepath
            line := node.lineno
            functionName := st.current_function }
      else none

mutual

/-- The expression part of the traversal (`visit` dispatching to `visit_Call`
or `generic_visit`): collect, in `generic_visit`'s field order, the event
records of every call in the expression.  No statement can occur inside an
expression, so the scope state is read-only here. -/
def visitExpr (ctx : Ctx) (st : VState) : Expr → List Event
  | .constant _ => []
  | .name _ => []
  | .attributeE v _ => visitExpr ctx st v
  | .call f args kws ln =>
    (match processCall ctx st ⟨f, args, kws, ln⟩ with
     | some ev => [ev]
     | none => []) ++
      visitExpr ctx st f ++ visitExprList ctx st args ++ visitKwList ctx st kws
  | .dict ks vs => visitOptExprList ctx st ks ++ visitExprList ctx st vs
  | .listE elts => visitExprList ctx st elts
  | .tupleE elts => visitExprList ctx st elts
  | .subscript v s => visitExpr ctx st v ++ visitExpr ctx st s
  | .otherE children => visitExprList ctx st children

/-- Traversal over a list of child expressions. -/
def visitExprList (ctx : Ctx) (st : VState) : List Expr → List Event
  | [] => []
  | e :: rest => visitExpr ctx st e ++ visitExprList ctx st rest

/-- Traversal over a dict's `keys` list (`None` entries model `**` unpacking
and have no children). -/
def visitOptExprList (ctx : Ctx) (st : VState) : List (Option Expr) → List Event
  | [] => []
  | some e :: rest => visitExpr ctx st e ++ visitOptExprList ctx st rest
  | none :: rest => visitOptExprList ctx st rest

/-- Traversal over a call's keyword arguments (only their values are
expressions). -/
def visitKwList (ctx : Ctx) (st : VState) : List (Option String × Expr) → List Event
  | [] => []
  | (_, v) :: rest => visitExpr ctx st v ++ visitKwList ctx st rest

end

/-- The parameter-annotation seeding of `visit_FunctionDef` (lines 110-113):
a fresh `var_types` table filled from the annotated parameters, in order. -/
def seedParams (params : List (String × Option Expr)) : List (String × VarType) :=
  params.foldl
    (fun m p =>
      match p.2 with
      | some ann => insertVar m p.1 (extract_type_annot ann)
      | none => m)
    []

/-- Traversal over the annotation expressions of a parameter list (part of
`generic_visit` on a function definition's `args` child). -/
def visitParamAnns (ctx : Ctx) (st : VState) : List (String × Option Expr) → List Event
  | [] => []
  | (_, some ann) :: rest => visitExpr ctx st ann ++ visitParamAnns ctx st rest
  | (_, none) :: rest => visitParamAnns ctx st rest

/-- The state update of `visit_AnnAssign` (lines 186-199): record the
annotation's type for a name target. -/
def annAssignUpdate (st : VState) (target : Expr) (ann : Expr) : VState :=
  match target with
  | .name id => { st with var_types := insertVar st.var_types id (extract_type_annot ann) }
  | _ => st

/-- The state update of `visit_Assign` (lines 201-216): for a single name
target assigned a constant, record the constant's value type. -/
def assignUpdate (st : VState) (targets : List Expr) (value : Expr) : VState :=
  match targets, value with
  | [.name id], .constant v =>
    { st with var_types := insertVar st.var_types id (.s (get_value_type v)) }
  | _, _ => st

mutual

/-- The statement part of the traversal.  Function and class definitions push
a fresh scope (annotations seeded for functions), visit their children under
it, and restore the outer state afterwards; assignment statements update the
current scope before their children are visited; all other statements thread
the state through their children.  Returns the state after the statement and
the events collected inside it. -/
def visitStmt (ctx : Ctx) (st : VState) : Stmt → VState × List Event
  | .functionDef name params body =>
    let inner : VState := ⟨name, seedParams params⟩
    let evAnns := visitParamAnns ctx inner params
    let bodyResult := visitStmtList ctx inner body
    (st, evAnns ++ bodyResult.2)
  | .classDef name body =>
    let inner : VState := ⟨name, []⟩
    let bodyResult := visitStmtList ctx inner body
    (st, bodyResult.2)
  | .annAssign target ann value =>
    let st1 := annAssignUpdate st target ann
    let evs := visitExpr ctx st1 target ++ visitExpr ctx st1 ann ++
      (match value with
       | some v => visitExpr ctx st1 v
       | none => [])
    (st1, evs)
  | .assign targets value =>
    let st1 := assignUpdate st targets value
    (st1, visitExprList ctx st1 targets ++ visitExpr ctx st1 value)
  | .exprStmt e => (st, visitExpr ctx st e)
  | .otherS exprs body =>
    let evE := visitExprList ctx st exprs
    let bodyResult := visitStmtList ctx st body
    (bodyResult.1, evE ++ bodyResult.2)

/-- Traversal over a statement list, threading the state. -/
def visitStmtList (ctx : Ctx) (st : VState) : List Stmt → VState × List Event
  | [] => (st, [])
  | s :: rest =>
    let r1 := visitStmt ctx st s
    let r2 := visitStmtList ctx r1.1 rest
    (r2.1, r1.2 ++ r2.2)

end

/-- One full visitor run over a parsed module (`visitor.visit(tree)`): the
accumulated `visitor.events`. -/
def visitorEvents (custom : Option String) (filepath : String) (body : List Stmt) :
    List Event :=
  (visitStmtList ⟨filepath, custom⟩ initState body).2

/-- Escape a string for JSON output (quote and backslash; the inputs the
analyzer meets contain no control characters). -/
def jsonEscape (s : String) : String :=
  String.mk
    (s.data.foldr
      (fun c acc =>
        if c == Char.ofNat 34 then Char.ofNat 92 :: Char.ofNat 34 :: acc
        else if c == Char.ofNat 92 then Char.ofNat 92 :: Char.ofNat 92 :: acc
        else c :: acc)
      [])

/-- A JSON string literal. -/
def jsonString (s : String) : String :=
  "\"" ++ jsonEscape s ++ "\""

/-- `json.dumps` of a constant value (opaque literals, which `json.dumps`
cannot serialize, are rendered as `null`; no claim exercises them). -/
def jsonOfPyVal : PyVal → String
  | .str s => jsonString s
  | .int n => toString n
  | .float q => toString q
  | .bool b => if b then "true" else "false"
  | .noneV => "null"
  | .otherLit _ _ => "null"

/-- `json.dumps` of a dict key: string keys stay strings, other key kinds are
coerced the way `json.dumps` coerces them. -/
def jsonOfKey : PyVal → String
  | .str s => jsonString s
  | .int n => jsonString (toString n)
  | .float q => jsonString (toString q)
  | .bool b => jsonString (if b then "true" else "false")
  | .noneV => jsonString "null"
  | .otherLit _ _ => jsonString "null"

mutual

/-- `json.dumps` of a type descriptor dict, fields in insertion order. -/
def jsonOfTypeDesc : TypeDesc → String
  | .mk t props items =>
    "\x7b" ++ jsonString "type" ++ ": " ++ jsonString t ++
      (match props with
       | some ps => ", " ++ jsonString "properties" ++ ": " ++
          ("\x7b" ++ jsonOfPropList ps ++ "\x7d")
       | none => "") ++
      (match items with
       | some it => ", " ++ jsonString "items" ++ ": " ++ jsonOfTypeDesc it
       | none => "") ++ "\x7d"

/-- Comma-separated members of a property map. -/
def jsonOfPropList : Props → String
  | [] => ""
  | [p] => jsonOfKey p.1 ++ ": " ++ jsonOfTypeDesc p.2
  | p :: q :: rest =>
    jsonOfKey p.1 ++ ": " ++ jsonOfTypeDesc p.2 ++ ", " ++ jsonOfPropList (q :: rest)

end

/-- `json.dumps` of a property map. -/
def jsonOfProps (ps : Props) : String :=
  "\x7b" ++ jsonOfPropList ps ++ "\x7d"

/-- `json.dumps` of one event record, fields in construction order
(lines 236-243). -/
def jsonOfEvent (e : Event) : String :=
  "\x7b" ++ jsonString "eventName" ++ ": " ++ jsonOfPyVal e.eventName ++ ", " ++
    jsonString "source" ++ ": " ++ jsonString e.source ++ ", " ++
    jsonString "properties" ++ ": " ++ jsonOfProps e.properties ++ ", " ++
    jsonString "filePath" ++ ": " ++ jsonString e.filePath ++ ", " ++
    jsonString "line" ++ ": " ++ toString e.line ++ ", " ++
    jsonString "functionName" ++ ": " ++ jsonString e.functionName ++ "\x7d"

/-- Comma-separated list elements. -/
def jsonOfEventList : List Event → String
  | [] => ""
  | [e] => jsonOfEvent e
  | e :: f :: rest => jsonOfEvent e ++ ", " ++ jsonOfEventList (f :: rest)

/-- `json.dumps` of the event list; `json.dumps([]) = "[]"`. -/
def jsonDumps (events : List Event) : String :=
  "[" ++ jsonOfEventList events ++ "]"

/-- An exception crossing the parse boundary (`ast.parse` raising
`SyntaxError`/`ValueError` on malformed source). -/
inductive PyErr where
  | syntaxError (msg : String)
  | valueError (msg : String)
deriving DecidableEq, Repr

/-- `analyze_python_code` of the reference variant (lines 758-785).  Parsing
is the external collaborator; its outcome is the `parsed` argument.  The whole
body sits in a `try/except` that returns `json.dumps([])` on any exception;
the visitor itself is total, so the only exception source is `ast.parse`. -/
def analyze_python_code (parsed : Except PyErr (List Stmt)) (filepath : String)
    (custom : Option String) : String :=
  match parsed with
  | .ok tree => jsonDumps (visitorEvents custom filepath tree)
  | .error _ => jsonDumps []

mutual

/-- Every call node inside an expression, in traversal order, paired with the
visitor state under which `visit_Call` meets it. -/
def callSitesExpr (st : VState) : Expr → List (VState × CallData)
  | .constant _ => []
  | .name _ => []
  | .attributeE v _ => callSitesExpr st v
  | .call f args kws ln =>
    (st, ⟨f, args, kws, ln⟩) ::
      (callSitesExpr st f ++ callSitesExprList st args ++ callSitesKwList st kws)
  | .dict ks vs => callSitesOptList st ks ++ callSitesExprList st vs
  | .listE elts => callSitesExprList st elts
  | .tupleE elts => callSitesExprList st elts
  | .subscript v s => callSitesExpr st v ++ callSitesExpr st s
  | .otherE children => callSitesExprList st children

/-- Call sites of a list of expressions. -/
def callSitesExprList (st : VState) : List Expr → List (VState × CallData)
  | [] => []
  | e :: rest => callSitesExpr st e ++ callSitesExprList st rest

/-- Call sites of a dict's `keys` list. -/
def callSitesOptList (st : VState) : List (Option Expr) → List (VState × CallData)
  | [] => []
  | some e :: rest => callSitesExpr st e ++ callSitesOptList st rest
  | none :: rest => callSitesOptList st rest

/-- Call sites of a keyword-argument list. -/
def callSitesKwList (st : VState) : List (Option String × Expr) → List (VState × CallData)
  | [] => []
  | (_, v) :: rest => callSitesExpr st v ++ callSitesKwList st rest

end

/-- Call sites of a parameter list's annotation expressions. -/
def callSitesParamAnns (st : VState) : List (String × Option Expr) → List (VState × CallData)
  | [] => []
  | (_, some ann) :: rest => callSitesExpr st ann ++ callSitesParamAnns st rest
  | (_, none) :: rest => callSitesParamAnns st rest

mutual

/-- Every call node inside a statement with its visiting state, together with
the scope state after the statement, mirroring the walker's threading. -/
def callSitesStmt (st : VState) : Stmt → VState × List (VState × CallData)
  | .functionDef name params body =>
    let inner : VState := ⟨name, seedParams params⟩
    (st, callSitesParamAnns inner params ++ (callSitesStmtList inner body).2)
  | .classDef name body =>
    (st, (callSitesStmtList ⟨name, []⟩ body).2)
  | .annAssign target ann value =>
    let st1 := annAssignUpdate st target ann
    (st1, callSitesExpr st1 target ++ callSitesExpr st1 ann ++
      (match value with
       | some v => callSitesExpr st1 v
       | none => []))
  | .assign targets value =>
    let st1 := assignUpdate st targets value
    (st1, callSitesExprList st1 targets ++ callSitesExpr st1 value)
  | .exprStmt e => (st, callSitesExpr st e)
  | .otherS exprs body =>
    let r := callSitesStmtList st body
    (r.1, callSitesExprList st exprs ++ r.2)

/-- Call sites of a statement list, threading the state. -/
def callSitesStmtList (st : VState) : List Stmt → VState × List (VState × CallData)
  | [] => (st, [])
  | s :: rest =>
    let r1 := callSitesStmt st s
    let r2 := callSitesStmtList r1.1 rest
    (r2.1, r1.2 ++ r2.2)

end

/-- Shorthand for the per-call processing function applied to a call site. -/
def processSite (ctx : Ctx) (p : VState × CallData) : Option Event :=
  processCall ctx p.1 p.2

/-- The key list of a property map. -/
def propKeys (props : Props) : List PyVal := props.map Prod.fst

/-- The three reserved posthog key names of claim C6. -/
def posthogReservedKey (x : PyVal) : Prop :=
  x = .str "$set" ∨ x = .str "$set_once" ∨ x = .str "$process_person_profile"

/-- Claim C4's anonymization condition, spelled the way the spec states it:
the located properties mapping explicitly pairs the literal key
`$process_person_profile` with the literal `False`. -/
def posthogAnonymous (node : CallData) : Prop :=
  ∃ ks vs, get_properties_node node "posthog" = some (Expr.dict ks vs) ∧
    ∃ p ∈ ks.zip vs,
      p.1 = some (Expr.constant (PyVal.str "$process_person_profile")) ∧
        p.2 = Expr.constant (PyVal.bool false)


/-- Claim C1's notion of a successful event-name extraction: a non-empty
literal string. -/
def isNonEmptyStrLit : Option PyVal → Bool
  | some (.str s) => !s.isEmpty
  | _ => false

/-- Modelled from the spec (section 4.2 rule 4, quoted by claim C5): the
collapse of a sequence's element kinds — all elements sharing one kind keep
it, kinds within \x7bnumber, string\x7d collapse to string, kinds within
\x7bnumber, boolean\x7d collapse to number, anything else to any, and an
empty sequence gives any. -/
def collapse_spec : List String → String
  | [] => "any"
  | k :: rest =>
    if rest.all (fun t => t == k) then k
    else if (k :: rest).all (fun t => t == "number" || t == "string") then "string"
    else if (k :: rest).all (fun t => t == "number" || t == "boolean") then "number"
    else "any"

/-- Fixture: a run context with no custom tracking function. -/
def ctx0 : Ctx := ⟨"app.py", none⟩

/-- Fixture (C1): `mp.track("u", 42)` — the event-name slot holds the integer
literal `42`, a truthy constant that is not a string. -/
def cexMpCall42 : CallData :=
  ⟨.attributeE (.name "mp") "track", [.constant (.str "u"), .constant (.int 42)], [], 3⟩

/-- Fixture (C1 witness): `mp.track("u1", "Signed Up")`. -/
def witMpCall : CallData :=
  ⟨.attributeE (.name "mp") "track",
    [.constant (.str "u1"), .constant (.str "Signed Up")], [], 4⟩

/-- Fixture (C4): `analytics.track(get_user_id(), "Signed Up")` — the first
positional argument is a call expression: present and not a null literal. -/
def cexSegCall : CallData :=
  ⟨.attributeE (.name "analytics") "track",
    [.call (.name "get_user_id") [] [] 2, .constant (.str "Signed Up")], [], 2⟩

/-- Fixture (C6 witness): the properties-dict key list of the posthog call
`posthog.capture("u1", "x", ...)` whose third argument maps `$set` to an
inner dict. -/
def witSetKeys : List (Option Expr) := [some (.constant (.str "$set"))]

/-- Fixture (C6 witness): the matching values list, an inner dict mapping
`plan` to `"pro"`. -/
def witSetValues : List Expr :=
  [.dict [some (.constant (.str "plan"))] [.constant (.str "pro")]]

/-- Fixture (C6 witness): the posthog capture call carrying `witSetKeys` /
`witSetValues` as its third positional argument. -/
def witPhSetCall : CallData :=
  ⟨.attributeE (.name "posthog") "capture",
    [.constant (.str "u1"), .constant (.str "x"), .dict witSetKeys witSetValues], [], 9⟩

/-- Fixture (C9): `trackStructEvent(StructuredEvent(action='x'))` — a call
recognized through the direct-function snowplow shape whose first argument is
a `StructuredEvent` constructor call. -/
def cexSnowDirect : CallData :=
  ⟨.name "trackStructEvent",
    [.call (.name "StructuredEvent") [] [(some "action", .constant (.str "x"))] 1], [], 1⟩

/-- Fixture (C9): the one-statement module around `cexSnowDirect`. -/
def cexSnowModule : List Stmt :=
  [.exprStmt (.call (.name "trackStructEvent")
    [.call (.name "StructuredEvent") [] [(some "action", .constant (.str "x"))] 1] [] 1)]

/-- Fixture (C9 witness): `trackStructEvent(...)` called on an argument
dictionary carrying a literal `action` entry. -/
def witSnowDict : CallData :=
  ⟨.name "trackStructEvent",
    [.dict [some (.constant (.str "action"))] [.constant (.str "x")]], [], 6⟩

/-- Fixture (C10 witness): `posthog.capture(uid, "Event")` with a bare-name
first argument. -/
def witPhNameCall : CallData :=
  ⟨.attributeE (.name "posthog") "capture",
    [.name "uid", .constant (.str "Event")], [], 11⟩

/-- Fixture (C10 witness): `posthog.capture("u1", "Event")` with a truthy
constant first argument. -/
def witPhConstCall : CallData :=
  ⟨.attributeE (.name "posthog") "capture",
    [.constant (.str "u1"), .constant (.str "Event")], [], 12⟩

/-- Fixture (C10 witness): `analytics.track(uid, "Event")` with a bare-name
first argument. -/
def witSegNameCall : CallData :=
  ⟨.attributeE (.name "analytics") "track",
    [.name "uid", .constant (.str "Event")], [], 13⟩


mutual

theorem visitExpr_filterMap (ctx : Ctx) (st : VState) (e : Expr) :
    visitExpr ctx st e = (callSitesExpr st e).filterMap (processSite ctx) := by
  cases e with
  | constant v => simp [visitExpr, callSitesExpr]
  | name i => simp [visitExpr, callSitesExpr]
  | attributeE v a =>
    simp [visitExpr, callSitesExpr, visitExpr_filterMap ctx st v]
  | call f args kws ln =>
    simp only [visitExpr, callSitesExpr, List.filterMap_cons, List.filterMap_append,
      visitExpr_filterMap ctx st f, visitExprList_filterMap ctx st args,
      visitKwList_filterMap ctx st kws, processSite]
    cases processCall ctx st ⟨f, args, kws, ln⟩ <;> simp
  | dict ks vs =>
    simp [visitExpr, callSitesExpr, List.filterMap_append,
      visitOptExprList_filterMap ctx st ks, visitExprList_filterMap ctx st vs]
  | listE elts =>
    simp [visitExpr, callSitesExpr, visitExprList_filterMap ctx st elts]
  | tupleE elts =>
    simp [visitExpr, callSitesExpr, visitExprList_filterMap ctx st elts]
  | subscript v s =>
    simp [visitExpr, callSitesExpr, List.filterMap_append,
      visitExpr_filterMap ctx st v, visitExpr_filterMap ctx st s]
  | otherE children =>
    simp [visitExpr, callSitesExpr, visitExprList_filterMap ctx st children]

theorem visitExprList_filterMap (ctx : Ctx) (st : VState) (es : List Expr) :
    visitExprList ctx st es = (callSitesExprList st es).filterMap (processSite ctx) := by
  cases es with
  | nil => simp [visitExprList, callSitesExprList]
  | cons e rest =>
    simp [visitExprList, callSitesExprList, List.filterMap_append,
      visitExpr_filterMap ctx st e, visitExprList_filterMap ctx st rest]

theorem visitOptExprList_filterMap (ctx : Ctx) (st : VState) (es : List (Option Expr)) :
    visitOptExprList ctx st es = (callSitesOptList st es).filterMap (processSite ctx) := by
  cases es with
  | nil => simp [visitOptExprList, callSitesOptList]
  | cons e rest =>
    cases e with
    | some e0 =>
      simp [visitOptExprList, callSitesOptList, List.filterMap_append,
        visitExpr_filterMap ctx st e0, visitOptExprList_filterMap ctx st rest]
    | none =>
      simp [visitOptExprList, callSitesOptList, visitOptExprList_filterMap ctx st rest]

theorem visitKwList_filterMap (ctx : Ctx) (st : VState) (kws : List (Option String × Expr)) :
    visitKwList ctx st kws = (callSitesKwList st kws).filterMap (processSite ctx) := by
  cases kws with
  | nil => simp [visitKwList, callSitesKwList]
  | cons kw rest =>
    simp [visitKwList, callSitesKwList, List.filterMap_append,
      visitExpr_filterMap ctx st kw.2, visitKwList_filterMap ctx st rest]

end

theorem visitParamAnns_filterMap (ctx : Ctx) (st : VState)
    (params : List (String × Option Expr)) :
    visitParamAnns ctx st params = (callSitesParamAnns st params).filterMap (processSite ctx) := by
  induction params with
  | nil => simp [visitParamAnns, callSitesParamAnns]
  | cons p rest ih =>
    obtain ⟨nm, ann⟩ := p
    cases ann with
    | some a =>
      simp [visitParamAnns, callSitesParamAnns, List.filterMap_append,
        visitExpr_filterMap ctx st a, ih]
    | none => simp [visitParamAnns, callSitesParamAnns, ih]

mutual

theorem visitStmt_filterMap (ctx : Ctx) (st : VState) (s : Stmt) :
    visitStmt ctx st s =
      ((callSitesStmt st s).1, ((callSitesStmt st s).2).filterMap (processSite ctx)) := by
  cases s with
  | functionDef name params body =>
    simp [visitStmt, callSitesStmt, List.filterMap_append,
      visitParamAnns_filterMap ctx ⟨name, seedParams params⟩ params,
      visitStmtList_filterMap ctx ⟨name, seedParams params⟩ body]
  | classDef name body =>
    simp [visitStmt, callSitesStmt, visitStmtList_filterMap ctx ⟨name, []⟩ body]
  | annAssign target ann value =>
    cases value with
    | some v =>
      simp [visitStmt, callSitesStmt, List.filterMap_append,
        visitExpr_filterMap ctx (annAssignUpdate st target ann) target,
        visitExpr_filterMap ctx (annAssignUpdate st target ann) ann,
        visitExpr_filterMap ctx (annAssignUpdate st target ann) v]
    | none =>
      simp [visitStmt, callSitesStmt, List.filterMap_append,
        visitExpr_filterMap ctx (annAssignUpdate st target ann) target,
        visitExpr_filterMap ctx (annAssignUpdate st target ann) ann]
  | assign targets value =>
    simp [visitStmt, callSitesStmt, List.filterMap_append,
      visitExprList_filterMap ctx (assignUpdate st targets value) targets,
      visitExpr_filterMap ctx (assignUpdate st targets value) value]
  | exprStmt e =>
    simp [visitStmt, callSitesStmt, visitExpr_filterMap ctx st e]
  | otherS exprs body =>
    simp [visitStmt, callSitesStmt, List.filterMap_append,
      visitExprList_filterMap ctx st exprs, visitStmtList_filterMap ctx st body]

theorem visitStmtList_filterMap (ctx : Ctx) (st : VState) (ss : List Stmt) :
    visitStmtList ctx st ss =
      ((callSitesStmtList st ss).1, ((callSitesStmtList st ss).2).filterMap (processSite ctx)) := by
  cases ss with
  | nil => simp [visitStmtList, callSitesStmtList]
  | cons s rest =>
    simp [visitStmtList, callSitesStmtList, List.filterMap_append,
      visitStmt_filterMap ctx st s,
      visitStmtList_filterMap ctx (callSitesStmt st s).1 rest]

end

/-! Helper lemmas about the embedded dictionary operations and Python
equality, used by the claim theorems below. -/

theorem pyEq_str_iff (a : PyVal) (s : String) : pyEq a (.str s) = true ↔ a = .str s := by
  cases a <;> simp [pyEq, PyVal.numView]

theorem propKeys_insertProp (props : Props) (k : PyVal) (v : TypeDesc) :
    propKeys (insertProp props k v) = propKeys props ∨
      propKeys (insertProp props k v) = propKeys props ++ [k] := by
  unfold insertProp
  split
  · left
    unfold propKeys
    rw [List.map_map]
    apply List.map_congr_left
    intro p _
    simp only [Function.comp_apply]
    split <;> rfl
  · right
    simp [propKeys]

theorem mem_propKeys_insertProp {props : Props} {k x : PyVal} {v : TypeDesc}
    (h : x ∈ propKeys (insertProp props k v)) : x ∈ propKeys props ∨ x = k := by
  rcases propKeys_insertProp props k v with he | he <;> rw [he] at h
  · exact Or.inl h
  · rcases List.mem_append.1 h with h1 | h1
    · exact Or.inl h1
    · simp at h1; exact Or.inr h1

theorem propKeys_insertProp_mono {props : Props} {x : PyVal} (k : PyVal) (v : TypeDesc)
    (h : x ∈ propKeys props) : x ∈ propKeys (insertProp props k v) := by
  rcases propKeys_insertProp props k v with he | he <;> rw [he]
  · exact h
  · exact List.mem_append.2 (Or.inl h)

theorem str_mem_propKeys_insertProp (props : Props) (s : String) (v : TypeDesc) :
    PyVal.str s ∈ propKeys (insertProp props (.str s) v) := by
  unfold insertProp
  split
  · next hAny =>
    rcases List.any_eq_true.1 hAny with ⟨p, hp, hpe⟩
    have : p.1 = .str s := (pyEq_str_iff p.1 s).1 hpe
    unfold propKeys
    rw [List.map_map]
    have : PyVal.str s ∈ props.map Prod.fst := this ▸ List.mem_map_of_mem Prod.fst hp
    rcases List.mem_map.1 this with ⟨q, hq, hqe⟩
    refine List.mem_map.2 ⟨q, hq, ?_⟩
    simp only [Function.comp_apply]
    split <;> simp_all
  · simp [propKeys]

theorem mem_propKeys_propsUpdate {a : Props} {x : PyVal} (b : Props)
    (h : x ∈ propKeys (propsUpdate a b)) : x ∈ propKeys a ∨ x ∈ propKeys b := by
  induction b generalizing a with
  | nil => exact Or.inl h
  | cons p rest ih =>
    rw [propsUpdate] at h
    simp only [List.foldl_cons] at h
    rcases ih (a := insertProp a p.1 p.2) h with h1 | h1
    · rcases mem_propKeys_insertProp h1 with h2 | h2
      · exact Or.inl h2
      · right; rw [h2]; exact List.mem_map_of_mem Prod.fst (List.mem_cons_self p rest)
    · right
      rcases List.mem_map.1 h1 with ⟨q, hq, hqe⟩
      exact List.mem_map.2 ⟨q, List.mem_cons_of_mem p hq, hqe⟩

theorem propKeys_propsUpdate_mono {a : Props} {x : PyVal} (b : Props)
    (h : x ∈ propKeys a) : x ∈ propKeys (propsUpdate a b) := by
  induction b generalizing a with
  | nil => exact h
  | cons p rest ih =>
    rw [propsUpdate]
    simp only [List.foldl_cons]
    exact ih (propKeys_insertProp_mono p.1 p.2 h)

theorem str_mem_propKeys_propsUpdate (a : Props) {b : Props} {s : String} {t : TypeDesc}
    (h : (PyVal.str s, t) ∈ b) : PyVal.str s ∈ propKeys (propsUpdate a b) := by
  induction b generalizing a with
  | nil => cases h
  | cons p rest ih =>
    rw [propsUpdate]
    simp only [List.foldl_cons]
    rcases List.mem_cons.1 h with h1 | h1
    · rw [← propsUpdate]
      apply propKeys_propsUpdate_mono
      rw [← h1]
      exact str_mem_propKeys_insertProp a s t
    · exact ih (insertProp a p.1 p.2) h1

theorem dedup_len_one {α : Type} [DecidableEq α] (x : α) (xs : List α) :
    ((x :: xs).dedup.length = 1) ↔ ∀ y ∈ x :: xs, y = x := by
  constructor
  · intro h y hy
    obtain ⟨a, ha⟩ : ∃ a, (x :: xs).dedup = [a] := by
      cases hd : (x :: xs).dedup with
      | nil => rw [hd] at h; simp at h
      | cons a t =>
        rw [hd] at h
        simp at h
        exact ⟨a, by rw [h]⟩
    have hx : x = a := by
      have hm : x ∈ (x :: xs).dedup := List.mem_dedup.2 (List.mem_cons_self x xs)
      rw [ha] at hm; simpa using hm
    have hm : y ∈ (x :: xs).dedup := List.mem_dedup.2 hy
    rw [ha] at hm; simp at hm; rw [hm, ← hx]
  · intro h
    have hone : (x :: xs).dedup = [x] := by
      cases hd : (x :: xs).dedup with
      | nil =>
        have := (List.dedup_eq_nil (x :: xs)).1 hd
        simp at this
      | cons a t =>
        have ha : a = x := h a (List.mem_dedup.1 (hd ▸ List.mem_cons_self a t))
        have ht : t = [] := by
          cases t with
          | nil => rfl
          | cons b u =>
            have hb : b = x := h b (List.mem_dedup.1 (by rw [hd]; simp))
            have hnd : (x :: xs).dedup.Nodup := List.nodup_dedup _
            rw [hd, ha, hb] at hnd
            simp at hnd
        rw [ha, ht]
    rw [hone]
    rfl

theorem set_dot_ne_set (x : String) : ("$set." ++ x) ≠ "$set" := by
  intro h
  have hl := congrArg String.length h
  rw [String.length_append] at hl
  rw [show "$set.".length = 5 from rfl, show "$set".length = 4 from rfl] at hl
  omega

theorem set_dot_ne_set_once (x : String) : ("$set." ++ x) ≠ "$set_once" := by
  intro h
  rw [String.ext_iff, String.data_append] at h
  rw [show "$set.".data = ['$', 's', 'e', 't', '.'] from rfl,
    show "$set_once".data = ['$', 's', 'e', 't', '_', 'o', 'n', 'c', 'e'] from rfl] at h
  simp at h

theorem set_dot_ne_ppp (x : String) : ("$set." ++ x) ≠ "$process_person_profile" := by
  intro h
  rw [String.ext_iff, String.data_append] at h
  rw [show "$set.".data = ['$', 's', 'e', 't', '.'] from rfl,
    show "$process_person_profile".data =
      ['$', 'p', 'r', 'o', 'c', 'e', 's', 's', '_', 'p', 'e', 'r', 's', 'o', 'n', '_',
        'p', 'r', 'o', 'f', 'i', 'l', 'e'] from rfl] at h
  simp at h

theorem set_once_dot_ne_set (x : String) : ("$set_once." ++ x) ≠ "$set" := by
  intro h
  have hl := congrArg String.length h
  rw [String.length_append] at hl
  rw [show "$set_once.".length = 10 from rfl, show "$set".length = 4 from rfl] at hl
  omega

theorem set_once_dot_ne_set_once (x : String) : ("$set_once." ++ x) ≠ "$set_once" := by
  intro h
  have hl := congrArg String.length h
  rw [String.length_append] at hl
  rw [show "$set_once.".length = 10 from rfl, show "$set_once".length = 9 from rfl] at hl
  omega

theorem set_once_dot_ne_ppp (x : String) : ("$set_once." ++ x) ≠ "$process_person_profile" := by
  intro h
  rw [String.ext_iff, String.data_append] at h
  rw [show "$set_once.".data = ['$', 's', 'e', 't', '_', 'o', 'n', 'c', 'e', '.'] from rfl,
    show "$process_person_profile".data =
      ['$', 'p', 'r', 'o', 'c', 'e', 's', 's', '_', 'p', 'e', 'r', 's', 'o', 'n', '_',
        'p', 'r', 'o', 'f', 'i', 'l', 'e'] from rfl] at h
  simp at h

theorem dictEntryInserts_posthog_not_reserved (st : VState) (kv : PyVal) (v : Expr) :
    ∀ p ∈ dictEntryInserts st "posthog" kv v, ¬ posthogReservedKey p.1 := by
  intro p hp
  unfold dictEntryInserts at hp
  split at hp
  · next hset =>
    simp only [Bool.and_eq_true, Bool.or_eq_true] at hset
    cases v with
    | dict iks ivs =>
      rcases List.mem_map.1 hp with ⟨q, _, hqe⟩
      have hk : p.1 = PyVal.str (pyStr kv ++ "." ++ pyStr q.1) := by rw [← hqe]
      rcases hset.2 with hkv | hkv
      · have : kv = .str "$set" := (pyEq_str_iff kv "$set").1 hkv
        subst this
        rw [show pyStr (PyVal.str "$set") = "$set" from rfl] at hk
        rw [show ("$set" : String) ++ "." = "$set." from by decide] at hk
        intro hr
        rcases hr with h1 | h1 | h1 <;> rw [hk] at h1 <;> simp at h1
        · exact set_dot_ne_set (pyStr q.1) h1
        · exact set_dot_ne_set_once (pyStr q.1) h1
        · exact set_dot_ne_ppp (pyStr q.1) h1
      · have : kv = .str "$set_once" := (pyEq_str_iff kv "$set_once").1 hkv
        subst this
        rw [show pyStr (PyVal.str "$set_once") = "$set_once" from rfl] at hk
        rw [show ("$set_once" : String) ++ "." = "$set_once." from by decide] at hk
        intro hr
        rcases hr with h1 | h1 | h1 <;> rw [hk] at h1 <;> simp at h1
        · exact set_once_dot_ne_set (pyStr q.1) h1
        · exact set_once_dot_ne_set_once (pyStr q.1) h1
        · exact set_once_dot_ne_ppp (pyStr q.1) h1
    | constant c => cases hp
    | name i => cases hp
    | attributeE a b => cases hp
    | call a b c d => cases hp
    | listE a => cases hp
    | tupleE a => cases hp
    | subscript a b => cases hp
    | otherE a => cases hp
  · next hset =>
    split at hp
    · next => cases hp
    · next hppp =>
      split at hp
      · next =>
        simp only [List.mem_singleton] at hp
        subst hp
        simp only [Bool.and_eq_true, Bool.or_eq_true] at hset hppp
        intro hr
        rcases hr with h1 | h1 | h1
        · exact hset ⟨rfl, Or.inl ((pyEq_str_iff kv "$set").2 h1)⟩
        · exact hset ⟨rfl, Or.inr ((pyEq_str_iff kv "$set_once").2 h1)⟩
        · exact hppp ⟨rfl, (pyEq_str_iff kv "$process_person_profile").2 h1⟩
      · cases hp

theorem extract_dict_properties_loop_pred (P : PyVal → Prop) (st : VState)
    (hE : ∀ kv v, ∀ p ∈ dictEntryInserts st "posthog" kv v, P p.1) :
    ∀ (ks : List (Option Expr)) (vs : List Expr) (acc : Props),
      (∀ x ∈ propKeys acc, P x) →
      ∀ x ∈ propKeys (extract_dict_properties_loop st "posthog" ks vs acc), P x := by
  intro ks
  induction ks with
  | nil =>
    intro vs acc hA x hx
    simp only [extract_dict_properties_loop] at hx
    exact hA x hx
  | cons k ks ih =>
    intro vs acc hA x hx
    cases vs with
    | nil =>
      simp only [extract_dict_properties_loop] at hx
      exact hA x hx
    | cons v vs =>
      cases k with
      | none =>
        simp only [extract_dict_properties_loop] at hx
        exact ih vs acc hA x hx
      | some ke =>
        cases ke
        case constant kv =>
          simp only [extract_dict_properties_loop] at hx
          refine ih vs (propsUpdate acc (dictEntryInserts st "posthog" kv v)) ?_ x hx
          intro y hy
          rcases mem_propKeys_propsUpdate _ hy with h1 | h1
          · exact hA y h1
          · rcases List.mem_map.1 h1 with ⟨q, hq, hqe⟩
            exact hqe ▸ hE kv v q hq
        all_goals
          simp only [extract_dict_properties_loop] at hx
          exact ih vs acc hA x hx

theorem extract_dict_properties_loop_mono (st : VState) (source : String) :
    ∀ (ks : List (Option Expr)) (vs : List Expr) (acc : Props) (x : PyVal),
      x ∈ propKeys acc → x ∈ propKeys (extract_dict_properties_loop st source ks vs acc) := by
  intro ks
  induction ks with
  | nil =>
    intro vs acc x h
    simpa only [extract_dict_properties_loop] using h
  | cons k ks ih =>
    intro vs acc x h
    cases vs with
    | nil => simpa only [extract_dict_properties_loop] using h
    | cons v vs =>
      cases k with
      | none =>
        simp only [extract_dict_properties_loop]
        exact ih vs acc x h
      | some ke =>
        cases ke
        case constant kv =>
          simp only [extract_dict_properties_loop]
          exact ih vs _ x (propKeys_propsUpdate_mono _ h)
        all_goals
          simp only [extract_dict_properties_loop]
          exact ih vs acc x h

theorem extract_dict_properties_loop_flatten (st : VState) :
    ∀ (i : Nat) (ks : List (Option Expr)) (vs : List Expr) (acc : Props)
      (setKey : String) (iks : List (Option Expr)) (ivs : List Expr) (nk : PyVal)
      (nt : TypeDesc),
      (setKey = "$set" ∨ setKey = "$set_once") →
      ks.get? i = some (some (.constant (.str setKey))) →
      vs.get? i = some (.dict iks ivs) →
      (nk, nt) ∈ extract_nested_dict st iks ivs →
      PyVal.str (setKey ++ "." ++ pyStr nk) ∈
        propKeys (extract_dict_properties_loop st "posthog" ks vs acc) := by
  intro i
  induction i with
  | zero =>
    intro ks vs acc setKey iks ivs nk nt hKey hks hvs hmem
    cases ks with
    | nil => cases hks
    | cons k ks =>
      cases vs with
      | nil => cases hvs
      | cons v vs =>
        rw [List.get?_cons_zero, Option.some.injEq] at hks hvs
        subst hks
        subst hvs
        simp only [extract_dict_properties_loop]
        apply extract_dict_properties_loop_mono
        rcases hKey with h | h <;> subst h
        · have hentry :
              dictEntryInserts st "posthog" (.str "$set") (.dict iks ivs) =
                (extract_nested_dict st iks ivs).map
                  (fun p => (PyVal.str ("$set" ++ "." ++ pyStr p.1), p.2)) := rfl
          rw [hentry]
          exact str_mem_propKeys_propsUpdate acc
            (List.mem_map.2 ⟨(nk, nt), hmem, rfl⟩)
        · have hentry :
              dictEntryInserts st "posthog" (.str "$set_once") (.dict iks ivs) =
                (extract_nested_dict st iks ivs).map
                  (fun p => (PyVal.str ("$set_once" ++ "." ++ pyStr p.1), p.2)) := rfl
          rw [hentry]
          exact str_mem_propKeys_propsUpdate acc
            (List.mem_map.2 ⟨(nk, nt), hmem, rfl⟩)
  | succ i ih =>
    intro ks vs acc setKey iks ivs nk nt hKey hks hvs hmem
    cases ks with
    | nil => cases hks
    | cons k ks =>
      cases vs with
      | nil => cases hvs
      | cons v vs =>
        rw [List.get?_cons_succ] at hks hvs
        cases k with
        | none =>
          simp only [extract_dict_properties_loop]
          exact ih ks vs acc setKey iks ivs nk nt hKey hks hvs hmem
        | some ke =>
          cases ke
          case constant kv =>
            simp only [extract_dict_properties_loop]
            exact ih ks vs _ setKey iks ivs nk nt hKey hks hvs hmem
          all_goals
            simp only [extract_dict_properties_loop]
            exact ih ks vs acc setKey iks ivs nk nt hKey hks hvs hmem

theorem extract_posthog_user_id_keys (node : CallData) :
    ∀ p ∈ extract_posthog_user_id node, p.1 = PyVal.str "distinct_id" := by
  intro p hp
  unfold extract_posthog_user_id at hp
  split at hp
  · cases hp
  · split at hp
    · next =>
      split at hp
      · simp only [List.mem_singleton] at hp
        rw [hp]
      · cases hp
    · next => cases hp

theorem is_false_literal_iff (v : Expr) :
    is_false_literal v = true ↔ v = .constant (.bool false) := by
  cases v <;> simp [is_false_literal]

theorem is_non_null_value_iff (a : Expr) :
    is_non_null_value a = true ↔
      ((∃ v, a = .constant v ∧ v ≠ PyVal.noneV) ∨ ∃ i, a = .name i) := by
  cases a <;> simp [is_non_null_value]

theorem anonPairScan_iff :
    ∀ (ks : List (Option Expr)) (vs : List Expr),
      anonPairScan ks vs = true ↔
        ∃ p ∈ ks.zip vs,
          p.1 = some (Expr.constant (PyVal.str "$process_person_profile")) ∧
            p.2 = Expr.constant (PyVal.bool false) := by
  intro ks
  induction ks with
  | nil => intro vs; simp [anonPairScan]
  | cons k ks ih =>
    intro vs
    cases vs with
    | nil => simp [anonPairScan]
    | cons v vs =>
      cases k with
      | none =>
        simp only [anonPairScan, List.zip_cons_cons, List.mem_cons]
        rw [ih vs]
        constructor
        · intro ⟨p, hp, hc⟩
          exact ⟨p, Or.inr hp, hc⟩
        · intro ⟨p, hp, hc⟩
          rcases hp with hp | hp
          · rw [hp] at hc
            cases hc.1
          · exact ⟨p, hp, hc⟩
      | some ke =>
        cases ke
        case constant kv =>
          simp only [anonPairScan, Bool.or_eq_true, Bool.and_eq_true,
            List.zip_cons_cons, List.mem_cons]
          rw [ih vs, pyEq_str_iff, is_false_literal_iff]
          constructor
          · intro h
            rcases h with ⟨hk, hv⟩ | ⟨p, hp, hc⟩
            · exact ⟨(some (.constant kv), v), Or.inl rfl, by simp [hk, hv]⟩
            · exact ⟨p, Or.inr hp, hc⟩
          · intro ⟨p, hp, hc⟩
            rcases hp with hp | hp
            · left
              rw [hp] at hc
              obtain ⟨hc1, hc2⟩ := hc
              simp only [Option.some.injEq, Expr.constant.injEq] at hc1
              exact ⟨hc1, hc2⟩
            · exact Or.inr ⟨p, hp, hc⟩
        all_goals
          simp only [anonPairScan, List.zip_cons_cons, List.mem_cons]
          rw [ih vs]
          constructor
          · intro ⟨p, hp, hc⟩
            exact ⟨p, Or.inr hp, hc⟩
          · intro ⟨p, hp, hc⟩
            rcases hp with hp | hp
            · rw [hp] at hc
              cases hc.1
            · exact ⟨p, hp, hc⟩

theorem posthog_is_anonymous_iff (node : CallData) :
    posthog_is_anonymous node = true ↔ posthogAnonymous node := by
  unfold posthog_is_anonymous posthogAnonymous
  cases hg : get_properties_node node "posthog" with
  | none => simp
  | some e =>
    cases e
    case dict ks vs =>
      rw [anonPairScan_iff]
      constructor
      · intro ⟨p, hp, hc⟩
        exact ⟨ks, vs, rfl, p, hp, hc⟩
      · rintro ⟨ks2, vs2, he, p, hp, hc⟩
        obtain ⟨h1, h2⟩ : ks = ks2 ∧ vs = vs2 := by simpa using he
        subst h1
        subst h2
        exact ⟨p, hp, hc⟩
    all_goals simp

theorem dedup_all {α : Type} [DecidableEq α] (l : List α) (p : α → Bool) :
    l.dedup.all p = l.all p := by
  rw [Bool.eq_iff_iff]
  simp only [List.all_eq_true, List.mem_dedup]

theorem extract_standard_user_id_iff (node : CallData) (key : String) :
    extract_standard_user_id node key = [(.str key, .prim "string")] ↔
      ∃ a, node.args.head? = some a ∧
        ((∃ v, a = .constant v ∧ v ≠ PyVal.noneV) ∨ ∃ i, a = .name i) := by
  unfold extract_standard_user_id
  cases hh : node.args.head? with
  | none => simp
  | some a =>
    have hiff := is_non_null_value_iff a
    cases hv : is_non_null_value a with
    | true => simp [hv, hiff.1 hv]
    | false =>
      have hnp : ¬((∃ v, a = .constant v ∧ v ≠ PyVal.noneV) ∨ ∃ i, a = .name i) := by
        intro hp
        have hc := hiff.2 hp
        rw [hv] at hc
        cases hc
      simp [hv, hnp]

theorem extract_amplitude_user_id_iff (node : CallData) :
    extract_amplitude_user_id node = [(.str "user_id", .prim "string")] ↔
      ∃ f as kws ln, node.args.head? = some (.call f as kws ln) ∧
        ∃ p ∈ kws, p.1 = some "user_id" ∧
          ((∃ v, p.2 = .constant v ∧ v ≠ PyVal.noneV) ∨ ∃ i, p.2 = .name i) := by
  unfold extract_amplitude_user_id
  cases hh : node.args.head? with
  | none => simp
  | some a =>
    cases a
    case call f as kws ln =>
      show (if (kws.any fun p => p.1 == some "user_id" && is_non_null_value p.2) = true
          then [(PyVal.str "user_id", TypeDesc.prim "string")] else ([] : Props)) =
          [(PyVal.str "user_id", TypeDesc.prim "string")] ↔ _
      cases hA : kws.any (fun p => p.1 == some "user_id" && is_non_null_value p.2) with
      | true =>
        constructor
        · intro _
          rcases List.any_eq_true.1 hA with ⟨p, hp, hc⟩
          simp only [Bool.and_eq_true, beq_iff_eq] at hc
          exact ⟨f, as, kws, ln, rfl, p, hp, hc.1, (is_non_null_value_iff p.2).1 hc.2⟩
        · intro _
          rfl
      | false =>
        constructor
        · intro h
          simp at h
        · rintro ⟨f2, as2, kws2, ln2, he, p, hp, hn, hval⟩
          obtain ⟨h1, h2, h3, h4⟩ : f = f2 ∧ as = as2 ∧ kws = kws2 ∧ ln = ln2 := by
            simpa using he
          subst h3
          have hx : kws.any (fun p => p.1 == some "user_id" && is_non_null_value p.2) = true :=
            List.any_eq_true.2 ⟨p, hp, by
              simp only [Bool.and_eq_true, beq_iff_eq]
              exact ⟨hn, (is_non_null_value_iff p.2).2 hval⟩⟩
          rw [hA] at hx
          cases hx
    all_goals simp

theorem extract_posthog_user_id_iff (node : CallData) :
    extract_posthog_user_id node = [(.str "distinct_id", .prim "string")] ↔
      (¬ posthogAnonymous node ∧
        ∃ v, node.args.head? = some (.constant v) ∧ v.truthy = true) := by
  unfold extract_posthog_user_id
  cases hA : posthog_is_anonymous node with
  | true =>
    have hAn : posthogAnonymous node := (posthog_is_anonymous_iff node).1 hA
    simp [hAn]
  | false =>
    have hAn : ¬ posthogAnonymous node := by
      intro hc
      rw [(posthog_is_anonymous_iff node).2 hc] at hA
      cases hA
    simp only [Bool.false_eq_true, if_false, hAn, not_false_iff, true_and]
    cases hh : node.args.head? with
    | none => simp
    | some a =>
      cases a
      case constant v =>
        show (if v.truthy = true
            then [(PyVal.str "distinct_id", TypeDesc.prim "string")] else ([] : Props)) =
            [(PyVal.str "distinct_id", TypeDesc.prim "string")] ↔ _
        cases hT : v.truthy with
        | true => simp [hT]
        | false =>
          constructor
          · intro h
            simp at h
          · rintro ⟨v2, he, ht⟩
            obtain h1 : v = v2 := by simpa using he
            subst h1
            rw [hT] at ht
            cases ht
      all_goals simp

/-! The claims. -/

/-- C1 (counterexample): at `mp.track("u", 42)` the call is matched to
mixpanel and a record is emitted, although event-name extraction yields the
integer literal `42` — not a non-empty literal string.  The claim's "only if"
direction fails: any truthy constant, string or not, produces a record. -/
theorem claim_C1_counterexample :
    detect_source none cexMpCall42 = some "mixpanel" ∧
      (processCall ctx0 initState cexMpCall42).isSome = true ∧
      isNonEmptyStrLit (extract_event_name cexMpCall42 "mixpanel") = false := by
  exact ⟨rfl, rfl, rfl⟩

/-- C1 (amended): for every call node matched to a library, a record is
emitted if and only if event-name extraction yields a literal constant that
is truthy under Python's truth test — for strings that means non-empty, but a
truthy non-string constant also produces a record; absent, non-literal, or
falsy event names yield no record. -/
theorem claim_C1_amended (ctx : Ctx) (st : VState) (node : CallData) (source : String)
    (h : detect_source ctx.custom node = some source) :
    (processCall ctx st node).isSome = true ↔
      ∃ v, extract_event_name node source = some v ∧ v.truthy = true := by
  unfold processCall
  rw [h]
  cases hE : extract_event_name node source with
  | none => simp [hE]
  | some v =>
    cases hT : v.truthy with
    | false => simp [hE, hT]
    | true => simp [hE, hT]

/-- C1 (witness): the amended claim at `mp.track("u1", "Signed Up")`. -/
theorem claim_C1_witness :
    (processCall ctx0 initState witMpCall).isSome = true ↔
      ∃ v, extract_event_name witMpCall "mixpanel" = some v ∧ v.truthy = true :=
  claim_C1_amended ctx0 initState witMpCall "mixpanel" rfl

/-- C2: the reference entry point `analyze_python_code`
(`src/src/analyze/python/pythonTrackingAnalyzer.py`, lines 758-785) returns
the serialized empty array on every parse failure and propagates nothing —
its whole body sits in a `try/except` returning `json.dumps([])`.  The legacy
entry point (`src/src/analyze/pythonTrackingAnalyzer.py`, lines 396-403) has
no such handler, so there a parse failure propagates to the caller; the code
of the legacy variant contradicts the documented boundary contract. -/
theorem claim_C2_reference_empty_on_parse_error (err : PyErr) (fp : String)
    (custom : Option String) :
    analyze_python_code (.error err) fp custom = "[]" := rfl

/-- C3: the visitor's output is a per-call `filterMap` over the call sites of
the tree in traversal order, each processed solely from its own node and the
scope state at its visit.  A call whose detection or extraction settles to
"no record" (the embedding's image of the caught exception: every operation
the source's `try/except` guards is bounds-checked, so failure surfaces as
`none` or a partial map) contributes nothing for that call alone — it cannot
abort the traversal or disturb any other call's record. -/
theorem claim_C3_per_call_isolation (custom : Option String) (fp : String)
    (body : List Stmt) :
    visitorEvents custom fp body =
      ((callSitesStmtList initState body).2).filterMap (processSite ⟨fp, custom⟩) := by
  unfold visitorEvents
  rw [visitStmtList_filterMap ⟨fp, custom⟩ initState body]

/-- C5: the inferred item type of an inline list/tuple literal is exactly the
spec's collapse of the element kinds (one shared kind is kept; kinds within
number/string collapse to string; kinds within number/boolean collapse to
number; anything else to any; an empty sequence gives any); in particular
`[1, "a"]` infers array of string, `[1, True]` array of number, and
`[1, \x7b\x7d]` array of any. -/
theorem claim_C5_sequence_collapse :
    (∀ (st : VState) (elts : List Expr),
      infer_sequence_item_type st elts =
        .prim (collapse_spec (elts.map (infer_element_kind st)))) ∧
    extract_property_type initState (.listE [.constant (.int 1), .constant (.str "a")]) =
      some (.mk "array" none (some (.prim "string"))) ∧
    extract_property_type initState (.listE [.constant (.int 1), .constant (.bool true)]) =
      some (.mk "array" none (some (.prim "number"))) ∧
    extract_property_type initState (.listE [.constant (.int 1), .dict [] []]) =
      some (.mk "array" none (some (.prim "any"))) := by
  refine ⟨?_, rfl, rfl, rfl⟩
  intro st elts
  cases elts with
  | nil => rfl
  | cons e rest =>
    simp only [infer_sequence_item_type, collapse_spec, List.map_cons]
    have h1 : ((infer_element_kind st e :: rest.map (infer_element_kind st)).dedup.length == 1) =
        (rest.map (infer_element_kind st)).all (fun t => t == infer_element_kind st e) := by
      rw [Bool.eq_iff_iff]
      rw [Nat.beq_eq_true_eq, dedup_len_one, List.all_eq_true]
      constructor
      · intro h t ht
        rw [beq_iff_eq]
        exact h t (List.mem_cons_of_mem _ ht)
      · intro h y hy
        rcases List.mem_cons.1 hy with hy | hy
        · exact hy
        · exact beq_iff_eq.1 (h y hy)
    rw [h1]
    simp only [dedup_all]
    split_ifs <;> rfl

/-- C7: in the reference variant `get_value_type` checks booleans before
numbers, so a boolean literal always infers `boolean`; in the legacy variant
the number check comes first and, booleans being numeric subtypes in Python,
`True` infers `number` there — contradicting the documented intent the
reference variant implements.  Strings infer `string`, integer and floating
literals infer `number`, and the null literal infers `null` in both. -/
theorem claim_C7_bool_before_number :
    get_value_type (.bool true) = "boolean" ∧
      get_value_type (.bool false) = "boolean" ∧
      (∀ s, get_value_type (.str s) = "string") ∧
      (∀ n, get_value_type (.int n) = "number") ∧
      (∀ q, get_value_type (.float q) = "number") ∧
      get_value_type PyVal.noneV = "null" ∧
      get_value_type_legacy (.bool true) = "number" ∧
      get_value_type_legacy (.bool true) ≠ "boolean" := by
  refine ⟨rfl, rfl, fun s => rfl, fun n => rfl, fun q => rfl, rfl, rfl, by decide⟩

/-- C4 (counterexample): at `analytics.track(get_user_id(), "Signed Up")` the
first positional argument is present and is not a null literal, yet no
`user_id` property is injected (and the emitted record's property map is
empty): the code injects only for non-null constants and bare names, not for
arbitrary non-null expressions. -/
theorem claim_C4_counterexample :
    (cexSegCall.args.head?).isSome = true ∧
      cexSegCall.args.head? ≠ some (.constant PyVal.noneV) ∧
      extract_user_id cexSegCall "segment" = [] ∧
      processCall ctx0 initState cexSegCall =
        some ⟨.str "Signed Up", "segment", [], "app.py", 2, "global"⟩ := by
  refine ⟨rfl, ?_, rfl, rfl⟩
  intro h
  simp [cexSegCall] at h

/-- C4 (amended): identity-property injection is source-specific —
segment/rudderstack inject `user_id: string` and mixpanel injects
`distinct_id: string` exactly when the first positional argument is a
non-null literal constant or a bare identifier (any other expression, even
though present and non-null, injects nothing); amplitude injects
`user_id: string` exactly when the nested constructor call carries a
`user_id` keyword whose value is a non-null constant or bare identifier; and
posthog injects `distinct_id: string` exactly when the properties mapping
does not pair `$process_person_profile` with the literal `False` and the
first positional argument is a truthy literal constant. -/
theorem claim_C4_amended (node : CallData) :
    (extract_user_id node "segment" = [(.str "user_id", .prim "string")] ↔
      ∃ a, node.args.head? = some a ∧
        ((∃ v, a = .constant v ∧ v ≠ PyVal.noneV) ∨ ∃ i, a = .name i)) ∧
    (extract_user_id node "rudderstack" = [(.str "user_id", .prim "string")] ↔
      ∃ a, node.args.head? = some a ∧
        ((∃ v, a = .constant v ∧ v ≠ PyVal.noneV) ∨ ∃ i, a = .name i)) ∧
    (extract_user_id node "mixpanel" = [(.str "distinct_id", .prim "string")] ↔
      ∃ a, node.args.head? = some a ∧
        ((∃ v, a = .constant v ∧ v ≠ PyVal.noneV) ∨ ∃ i, a = .name i)) ∧
    (extract_user_id node "amplitude" = [(.str "user_id", .prim "string")] ↔
      ∃ f as kws ln, node.args.head? = some (.call f as kws ln) ∧
        ∃ p ∈ kws, p.1 = some "user_id" ∧
          ((∃ v, p.2 = .constant v ∧ v ≠ PyVal.noneV) ∨ ∃ i, p.2 = .name i)) ∧
    (extract_user_id node "posthog" = [(.str "distinct_id", .prim "string")] ↔
      (¬ posthogAnonymous node ∧
        ∃ v, node.args.head? = some (.constant v) ∧ v.truthy = true)) := by
  exact ⟨extract_standard_user_id_iff node "user_id",
    extract_standard_user_id_iff node "user_id",
    extract_standard_user_id_iff node "distinct_id",
    extract_amplitude_user_id_iff node,
    extract_posthog_user_id_iff node⟩

/-- C6: for posthog property extraction, no output property is keyed `$set`,
`$set_once`, or `$process_person_profile` (the first two are expanded, the
third dropped), and every entry of a `$set`/`$set_once` inline-mapping value
that survives nested extraction appears flattened under the key
`"<setKey>.<inner>"`. -/
theorem claim_C6_posthog_reserved :
    (∀ (st : VState) (node : CallData),
      ∀ p ∈ extract_properties st node "posthog", ¬ posthogReservedKey p.1) ∧
    (∀ (st : VState) (ks : List (Option Expr)) (vs : List Expr) (i : Nat) (setKey : String)
        (iks : List (Option Expr)) (ivs : List Expr) (nk : PyVal) (nt : TypeDesc),
      (setKey = "$set" ∨ setKey = "$set_once") →
      ks.get? i = some (some (.constant (.str setKey))) →
      vs.get? i = some (.dict iks ivs) →
      (nk, nt) ∈ extract_nested_dict st iks ivs →
      PyVal.str (setKey ++ "." ++ pyStr nk) ∈
        propKeys (extract_dict_properties st ks vs "posthog")) := by
  constructor
  · intro st node p hp hr
    have huid : ∀ x ∈ propKeys (propsUpdate [] (extract_user_id node "posthog")),
        ¬ posthogReservedKey x := by
      intro x hx hxr
      rcases mem_propKeys_propsUpdate _ hx with h2 | h2
      · cases h2
      · rcases List.mem_map.1 h2 with ⟨q, hq, hqe⟩
        have hk : q.1 = PyVal.str "distinct_id" := extract_posthog_user_id_keys node q hq
        rw [← hqe, hk] at hxr
        rcases hxr with h3 | h3 | h3 <;> simp at h3
    have hred : extract_properties st node "posthog" =
        (match get_properties_node node "posthog" with
         | some (.dict ks vs) =>
           propsUpdate (propsUpdate [] (extract_user_id node "posthog"))
             (extract_dict_properties st ks vs "posthog")
         | _ => propsUpdate [] (extract_user_id node "posthog")) := rfl
    rw [hred] at hp
    have hk : p.1 ∈ propKeys (match get_properties_node node "posthog" with
        | some (.dict ks vs) =>
          propsUpdate (propsUpdate [] (extract_user_id node "posthog"))
            (extract_dict_properties st ks vs "posthog")
        | _ => propsUpdate [] (extract_user_id node "posthog")) :=
      List.mem_map_of_mem Prod.fst hp
    cases hg : get_properties_node node "posthog" with
    | none =>
      rw [hg] at hk
      exact huid p.1 hk hr
    | some e =>
      rw [hg] at hk
      cases e
      case dict ks vs =>
        rcases mem_propKeys_propsUpdate _ hk with h1 | h1
        · exact huid p.1 h1 hr
        · exact extract_dict_properties_loop_pred (fun x => ¬ posthogReservedKey x) st
            (dictEntryInserts_posthog_not_reserved st) ks vs [] (by intro x hx; cases hx)
            p.1 h1 hr
      all_goals
        exact huid p.1 hk hr
  · intro st ks vs i setKey iks ivs nk nt h1 h2 h3 h4
    exact extract_dict_properties_loop_flatten st i ks vs [] setKey iks ivs nk nt h1 h2 h3 h4

/-- C6 (witness): the reserved-key absence at
`posthog.capture("u1", "x", ...)` with a `$set` mapping, and the flattening
producing the `$set.plan` key. -/
theorem claim_C6_witness :
    (∀ p ∈ extract_properties initState witPhSetCall "posthog", ¬ posthogReservedKey p.1) ∧
      PyVal.str ("$set" ++ "." ++ pyStr (PyVal.str "plan")) ∈
        propKeys (extract_dict_properties initState witSetKeys witSetValues "posthog") := by
  refine ⟨claim_C6_posthog_reserved.1 initState witPhSetCall, ?_⟩
  refine claim_C6_posthog_reserved.2 initState witSetKeys witSetValues 0 "$set"
    [some (.constant (.str "plan"))] [.constant (.str "pro")] (.str "plan") (.prim "string")
    (Or.inl rfl) rfl rfl ?_
  rw [show extract_nested_dict initState [some (.constant (.str "plan"))]
    [.constant (.str "pro")] = [(PyVal.str "plan", TypeDesc.prim "string")] from rfl]
  exact List.mem_singleton.mpr rfl

/-- C8 (counterexample): the bare container annotation `list` maps through
`TYPE_MAPPINGS.get('list', 'any')` to the plain kind `any`, not to an array
descriptor with `any` items as the claim states. -/
theorem claim_C8_counterexample :
    extract_type_annot (.name "list") = .s "any" ∧
      VarType.s "any" ≠ VarType.d (.mk "array" none (some (.prim "any"))) := by
  refine ⟨rfl, ?_⟩
  intro h
  cases h

/-- C8 (amended): a subscripted array-like container annotation with a simple
(name) element yields an array descriptor whose item type is the mapped
element type (`any` for unrecognized names); a subscripted array-like
container with any other element annotation yields the bare kind `array`
(no items); a subscripted mapping container yields the bare kind `object`;
a bare name — container names such as `list` and `dict` included — maps
through the primitive table, defaulting to `any`; and any other annotation
shape yields `any`. -/
theorem claim_C8_amended :
    (∀ c el, isArrayTypeName c = true →
      extract_type_annot (.subscript (.name c) (.name el)) =
        .d (.mk "array" none (some (.prim (typeMapName el))))) ∧
    (∀ c s, isArrayTypeName c = true → (∀ el, s ≠ Expr.name el) →
      extract_type_annot (.subscript (.name c) s) = .s "array") ∧
    (∀ c s, isObjectTypeName c = true →
      extract_type_annot (.subscript (.name c) s) = .s "object") ∧
    (∀ n, extract_type_annot (.name n) = .s (typeMapName n)) ∧
    extract_type_annot (.name "list") = .s "any" ∧
    extract_type_annot (.name "dict") = .s "any" ∧
    (∀ v sl, (∀ c, v ≠ Expr.name c) → extract_type_annot (.subscript v sl) = .s "any") ∧
    extract_type_annot (.otherE []) = .s "any" := by
  refine ⟨?_, ?_, ?_, fun n => rfl, rfl, rfl, ?_, rfl⟩
  · intro c el hc
    simp [extract_type_annot, hc]
  · intro c s hc hs
    cases s
    case name el => exact absurd rfl (hs el)
    all_goals simp [extract_type_annot, hc]
  · intro c s hc
    have hco : c = "Dict" ∨ c = "dict" := by
      unfold isObjectTypeName at hc
      rcases Bool.or_eq_true_iff.1 hc with h | h
      · exact Or.inl (beq_iff_eq.1 h)
      · exact Or.inr (beq_iff_eq.1 h)
    rcases hco with h | h <;> subst h <;> simp [extract_type_annot, isArrayTypeName,
      isObjectTypeName]
  · intro v sl hv
    cases v
    case name c => exact absurd rfl (hv c)
    all_goals rfl

/-- C8 (witness): the amended claim at `List[int]`, `list[(…)]` with a
non-name slice, and `Dict[str]`. -/
theorem claim_C8_witness :
    extract_type_annot (.subscript (.name "List") (.name "int")) =
      .d (.mk "array" none (some (.prim "number"))) ∧
      extract_type_annot (.subscript (.name "list") (.tupleE [])) = .s "array" ∧
      extract_type_annot (.subscript (.name "Dict") (.name "str")) = .s "object" := by
  refine ⟨?_, ?_, ?_⟩
  · exact claim_C8_amended.1 "List" "int" rfl
  · exact claim_C8_amended.2.1 "list" (.tupleE []) rfl (fun el h => by cases h)
  · exact claim_C8_amended.2.2.1 "Dict" (.name "str") rfl

/-- C9 (counterexample): `trackStructEvent(StructuredEvent(action='x'))` is
recognized through the direct-function snowplow shape (its callee is a bare
name), yet event-name extraction succeeds — the extractor only inspects the
first argument, which here is a `StructuredEvent` constructor call — and the
analyzer emits a record for it, refuting "such calls never produce an Event
Record". -/
theorem claim_C9_counterexample :
    detect_source none cexSnowDirect = some "snowplow" ∧
      (∃ f, cexSnowDirect.func = Expr.name f) ∧
      visitorEvents none "app.py" cexSnowModule =
        [⟨.str "x", "snowplow", [], "app.py", 1, "global"⟩] := by
  exact ⟨rfl, ⟨"trackStructEvent", rfl⟩, rfl⟩

/-- C9 (amended): for a call recognized through the direct-function snowplow
shapes, event-name extraction returns nothing — and no record is produced —
whenever the first argument is an argument dictionary (even one carrying a
literal `action` entry) or a literal constant (the
`snowplow('trackStructEvent', ...)` shape); only a first argument that is
itself a `StructuredEvent` constructor call can produce a record. -/
theorem claim_C9_amended (ctx : Ctx) (st : VState) (node : CallData) (f : String)
    (_hf : node.func = .name f)
    (hs : detect_source ctx.custom node = some "snowplow") :
    (∀ iks ivs, node.args.head? = some (.dict iks ivs) →
      extract_event_name node "snowplow" = none ∧ processCall ctx st node = none) ∧
    (∀ v, node.args.head? = some (.constant v) →
      extract_event_name node "snowplow" = none ∧ processCall ctx st node = none) := by
  have hext : extract_event_name node "snowplow" = none → processCall ctx st node = none := by
    intro h1
    unfold processCall
    rw [hs]
    simp [h1]
  constructor
  · intro iks ivs hh
    have h1 : extract_event_name node "snowplow" = none := by
      show extract_snowplow_event_name node = none
      unfold extract_snowplow_event_name
      rw [hh]
    exact ⟨h1, hext h1⟩
  · intro v hh
    have h1 : extract_event_name node "snowplow" = none := by
      show extract_snowplow_event_name node = none
      unfold extract_snowplow_event_name
      rw [hh]
    exact ⟨h1, hext h1⟩

/-- C9 (witness): the amended claim at `trackStructEvent(...)` applied to an
argument dictionary with a literal `action` entry. -/
theorem claim_C9_witness :
    extract_event_name witSnowDict "snowplow" = none ∧
      processCall ctx0 initState witSnowDict = none :=
  (claim_C9_amended ctx0 initState witSnowDict "trackStructEvent" rfl rfl).1
    [some (.constant (.str "action"))] [.constant (.str "x")] rfl

/-- C10: posthog injects its synthetic `distinct_id` only when the first
positional argument is a literal constant with a truthy value — a bare
identifier (or any non-constant expression) injects nothing — unlike
segment, rudderstack, and mixpanel, where a bare-identifier first argument
does trigger the identity property. -/
theorem claim_C10_posthog_identity :
    (∀ node : CallData, extract_posthog_user_id node ≠ [] →
      ∃ v, node.args.head? = some (.constant v) ∧ v.truthy = true) ∧
    (∀ (node : CallData) (i : String), node.args.head? = some (.name i) →
      extract_posthog_user_id node = []) ∧
    (∀ (node : CallData) (i : String), node.args.head? = some (.name i) →
      extract_user_id node "segment" = [(.str "user_id", .prim "string")] ∧
      extract_user_id node "rudderstack" = [(.str "user_id", .prim "string")] ∧
      extract_user_id node "mixpanel" = [(.str "distinct_id", .prim "string")]) := by
  refine ⟨?_, ?_, ?_⟩
  · intro node hne
    unfold extract_posthog_user_id at hne
    by_cases hA : posthog_is_anonymous node = true
    · rw [if_pos hA] at hne
      exact absurd rfl hne
    · rw [if_neg hA] at hne
      cases hh : node.args.head? with
      | none =>
        rw [hh] at hne
        exact absurd rfl hne
      | some a =>
        rw [hh] at hne
        cases a
        next v =>
          cases hT : v.truthy with
          | true => exact ⟨v, rfl, hT⟩
          | false => simp [hT] at hne
        all_goals simp at hne
  · intro node i hh
    unfold extract_posthog_user_id
    by_cases hA : posthog_is_anonymous node = true
    · rw [if_pos hA]
    · rw [if_neg hA, hh]
  · intro node i hh
    refine ⟨?_, ?_, ?_⟩ <;>
      · show extract_standard_user_id node _ = _
        unfold extract_standard_user_id
        rw [hh]
        rfl

/-- C10 (witness): a truthy constant argument injects `distinct_id`, a
bare-name argument injects nothing for posthog, and the same bare-name
argument does trigger the identity property for segment/rudderstack/mixpanel. -/
theorem claim_C10_witness :
    (∃ v, witPhConstCall.args.head? = some (.constant v) ∧ v.truthy = true) ∧
      extract_posthog_user_id witPhNameCall = [] ∧
      extract_user_id witSegNameCall "segment" = [(.str "user_id", .prim "string")] := by
  refine ⟨?_, ?_, ?_⟩
  · refine claim_C10_posthog_identity.1 witPhConstCall ?_
    rw [show extract_posthog_user_id witPhConstCall =
      [(PyVal.str "distinct_id", TypeDesc.prim "string")] from rfl]
    exact List.cons_ne_nil _ _
  · exact claim_C10_posthog_identity.2.1 witPhNameCall "uid" rfl
  · exact (claim_C10_posthog_identity.2.2 witSegNameCall "uid" rfl).1

end AnalyzeTracking
